import Mathlib

/-!
Shallow embedding of the chat-message API (`main.py`, `tools.py`, `models.py`,
`schemas.py`): two relational tables (users, messages) held in an explicit
state record, five request handlers modelled as state-passing functions that
return an `Except` result, the final database state, and the list of session
operations (inserts, deletes, commits) the request issued.  The pretrained
text-generation model is an injected external dependency exposing a single
`generate(prompt, params) -> text` capability, as suggested by the design
notes.
-/

namespace ChatApi

/-- A user row (`models.py`, class `User`): integer surrogate key, username,
opaque token. -/
structure User where
  id : Nat
  username : String
  token : String
deriving DecidableEq, Repr

/-- A message row (`models.py`, class `Message`): integer surrogate key,
content, optional generated response, foreign key to the owning user. -/
structure Message where
  id : Nat
  content : String
  generated_response : Option String
  user_id : Nat
deriving DecidableEq, Repr

/-- Request body for creating a message (`schemas.py`, class `MessageCreate`):
content, the poster's token, and four decoding parameters (defaults 50, 0.7,
0.95, 50 are supplied by the schema; the rationals stand for the floats, whose
values no handler inspects). -/
structure MessageCreate where
  content : String
  user_token : String
  response_length : Int
  response_temperature : Rat
  response_top_p : Rat
  response_top_k : Int
deriving DecidableEq, Repr

/-- The injected text-generation capability: `run prompt max_length top_k
top_p temperature repetition_penalty` stands for
`tokenizer.decode(model.generate(tokenizer.encode(prompt), ...))` in
`tools.py`, collapsed into one abstract function from prompt and decoding
parameters to the decoded output string. -/
structure GenModel where
  run : String → Int → Int → Rat → Rat → Rat → String

/-- The database state: the two tables in insertion order plus the
autoincrement counters for the surrogate keys. -/
structure DB where
  users : List User
  messages : List Message
  nextUserId : Nat
  nextMessageId : Nat
deriving DecidableEq, Repr

/-- A session operation issued while handling one request. -/
inductive Event where
  | addUser (id : Nat)
  | deleteUser (id : Nat)
  | addMessage (id : Nat)
  | deleteMessage (id : Nat)
  | commit
deriving DecidableEq, Repr

/-- The only explicitly modelled error kind: HTTP 400 bad request with a
detail string (`HTTPException(status_code=400, detail=...)`). -/
inductive ApiError where
  | badRequest (detail : String)
deriving DecidableEq, Repr

/-- The empty database produced by `Base.metadata.create_all`; SQLAlchemy
autoincrement keys start at 1. -/
def initDB : DB := { users := [], messages := [], nextUserId := 1, nextMessageId := 1 }

/-- `tools.get_user_by_token`: the first user row whose token matches, or
none (`db.query(UserModel).filter(UserModel.token == token).first()`). -/
def get_user_by_token (db : DB) (token : String) : Option User :=
  db.users.find? (fun u => u.token == token)

/-- `tools.get_chat_history`: raises HTTP 400 "Invalid token" when no user
holds the token, otherwise the user's messages in insertion order
(`db.query(MessageModel).filter(MessageModel.user_id == db_user.id).all()`). -/
def get_chat_history (user_token : String) (db : DB) : Except ApiError (List Message) :=
  match get_user_by_token db user_token with
  | none => .error (.badRequest "Invalid token")
  | some db_user => .ok (db.messages.filter (fun m => m.user_id == db_user.id))

/-- The fixed prompt template of `tools.generate_response`:
`f'User input: "{message.content}". IA response: '`. -/
def inputText (content : String) : String :=
  "User input: \"" ++ content ++ "\". IA response: "

/-- `tools.generate_response`: builds the fixed-template prompt from the
message content, invokes the model once with the caller-supplied decoding
parameters (plus the hard-coded repetition penalty 1.2), and returns the
decoded output with the first `len(input_text) + 1` characters sliced off
(`response[len(input_text) + 1 :]`).  The `chat_history` parameter is
accepted but unused: the loop that would add it to the prompt is commented
out in the source. -/
def generate_response (message : MessageCreate) (chat_history : List Message)
    (M : GenModel) : String :=
  let input_text := inputText message.content
  let response := M.run input_text message.response_length message.response_top_k
      message.response_top_p message.response_temperature (6/5 : Rat)
  response.drop (input_text.length + 1)

/-- Modelled from the spec: `check_message` is imported by `main.py` from
`tools` and called by `create_message`, but its definition is absent from the
provided sources.  Per the spec it is "a generic content-validity check
before generation", raising the HTTP 400 bad-request error for "invalid
message content"; the notion of validity is abstracted as a caller-supplied
predicate. -/
def check_message (valid : MessageCreate → Bool) (message : MessageCreate) :
    Except ApiError Unit :=
  if valid message then .ok () else .error (.badRequest "Invalid message content")

/-- `main.create_user`: rejects a taken username with HTTP 400, otherwise
inserts a user carrying the freshly generated token and commits.
`freshToken` stands for the `generate_token()` call (a random UUID). -/
def create_user (db : DB) (username : String) (freshToken : String) :
    Except ApiError User × DB × List Event :=
  match db.users.find? (fun u => u.username == username) with
  | some _ => (.error (.badRequest "Username already registered"), db, [])
  | none =>
    let new_user : User := { id := db.nextUserId, username := username, token := freshToken }
    (.ok new_user,
     { db with users := db.users ++ [new_user], nextUserId := db.nextUserId + 1 },
     [.addUser new_user.id, .commit])

/-- `main.delete_messages`: fetches the chat history (HTTP 400 if the token
is unknown), deletes each message of the history individually
(`for msg in chat_history: db.delete(msg)` — a per-primary-key delete),
then issues one commit. -/
def delete_messages (db : DB) (token : String) :
    Except ApiError String × DB × List Event :=
  match get_chat_history token db with
  | .error e => (.error e, db, [])
  | .ok chat_history =>
    (.ok "Chat history deleted successfully",
     { db with messages :=
         chat_history.foldl (fun acc msg => acc.filter (fun m => m.id != msg.id)) db.messages },
     chat_history.map (fun msg => Event.deleteMessage msg.id) ++ [Event.commit])

/-- `main.delete_user`: looks the user up by token (HTTP 400 "User not
found" if unknown), calls `delete_messages` on the same session, then
deletes the user row and commits. -/
def delete_user (db : DB) (token : String) :
    Except ApiError String × DB × List Event :=
  match get_user_by_token db token with
  | none => (.error (.badRequest "User not found"), db, [])
  | some db_user =>
    match delete_messages db token with
    | (.error e, db1, ev1) => (.error e, db1, ev1)
    | (.ok _, db1, ev1) =>
      (.ok ("User " ++ db_user.username ++ " deleted successfully"),
       { db1 with users := db1.users.filter (fun v => v.id != db_user.id) },
       ev1 ++ [.deleteUser db_user.id, .commit])

/-- `main.create_message`: validates the content (`check_message`), looks the
user up by token (HTTP 400 "Invalid token" if unknown), generates the
response from the message and the (unused) chat history, inserts the message
row and commits. -/
def create_message (valid : MessageCreate → Bool) (M : GenModel) (db : DB)
    (message : MessageCreate) : Except ApiError Message × DB × List Event :=
  match check_message valid message with
  | .error e => (.error e, db, [])
  | .ok _ =>
    match get_user_by_token db message.user_token with
    | none => (.error (.badRequest "Invalid token"), db, [])
    | some db_user =>
      match get_chat_history message.user_token db with
      | .error e => (.error e, db, [])
      | .ok hist =>
        let db_message : Message :=
          { id := db.nextMessageId, content := message.content,
            generated_response := some (generate_response message hist M),
            user_id := db_user.id }
        (.ok db_message,
         { db with messages := db.messages ++ [db_message],
                   nextMessageId := db.nextMessageId + 1 },
         [.addMessage db_message.id, .commit])

/-- `main.get_messages`: returns the chat history; read-only, no session
operations. -/
def get_messages (db : DB) (token : String) :
    Except ApiError (List Message) × DB × List Event :=
  (get_chat_history token db, db, [])

/-- One API request, for stating properties of operation sequences. -/
inductive Cmd where
  | createUser (username freshToken : String)
  | deleteUser (token : String)
  | createMessage (message : MessageCreate)
  | listMessages (token : String)
  | clearMessages (token : String)

/-- The database state after one request (success or failure). -/
def step (valid : MessageCreate → Bool) (M : GenModel) (db : DB) : Cmd → DB
  | .createUser n t => (create_user db n t).2.1
  | .deleteUser t => (delete_user db t).2.1
  | .createMessage m => (create_message valid M db m).2.1
  | .listMessages t => (get_messages db t).2.1
  | .clearMessages t => (delete_messages db t).2.1

/-- The database state after a sequence of requests. -/
def runCmds (valid : MessageCreate → Bool) (M : GenModel) (db : DB)
    (cs : List Cmd) : DB :=
  cs.foldl (step valid M) db

/-- Referential integrity: every message row's `user_id` is the `id` of a
user row present in the store. -/
def RefIntegrity (db : DB) : Prop :=
  ∀ m ∈ db.messages, ∃ u ∈ db.users, u.id = m.user_id

/-- Repeated message creation under one token, for stating the history-order
property: each message is posted with `create_message`; a failure aborts the
sequence. -/
def run_creates (valid : MessageCreate → Bool) (M : GenModel) :
    DB → List MessageCreate → Except ApiError DB
  | db, [] => .ok db
  | db, m :: ms =>
    match create_message valid M db m with
    | (.ok _, db1, _) => run_creates valid M db1 ms
    | (.error e, _, _) => .error e

/-- The message table left by the per-message delete loop of
`delete_messages`: each history entry is deleted by primary key in turn. -/
def purge (msgs hist : List Message) : List Message :=
  hist.foldl (fun acc msg => acc.filter (fun m => m.id != msg.id)) msgs

/-- Concrete user row for evaluating the theorems. -/
def aliceW : User := { id := 1, username := "alice", token := "tokA" }

/-- Concrete message row owned by `aliceW`. -/
def msgW : Message := { id := 1, content := "hi", generated_response := none, user_id := 1 }

/-- Concrete store holding one user and one message. -/
def dbW : DB := { users := [aliceW], messages := [msgW], nextUserId := 2, nextMessageId := 2 }

/-- Concrete message-creation request with the schema's default decoding
parameters. -/
def mcW : MessageCreate :=
  { content := "hi", user_token := "tokA", response_length := 50,
    response_temperature := 7/10, response_top_p := 19/20, response_top_k := 50 }

/-- Concrete request with empty content, for exercising the validity check. -/
def mcBadW : MessageCreate := { mcW with content := "" }

/-- Concrete validity predicate: nonempty content. -/
def validW : MessageCreate → Bool := fun m => m.content != ""

/-- Concrete model: echoes the prompt followed by "abc". -/
def modelW : GenModel := ⟨fun p _ _ _ _ _ => p ++ "abc"⟩

/-- The row a successful `create_message` inserts for user `u`. -/
def newMessage (M : GenModel) (db : DB) (u : User) (m : MessageCreate) : Message :=
  { id := db.nextMessageId, content := m.content,
    generated_response :=
      some (generate_response m (db.messages.filter (fun x => x.user_id == u.id)) M),
    user_id := u.id }

/-- Concrete store with a user and an empty message table. -/
def dbW2 : DB := { users := [aliceW], messages := [], nextUserId := 2, nextMessageId := 1 }

/-- Second concrete message-creation request. -/
def mcW2 : MessageCreate := { mcW with content := "yo" }

end ChatApi

namespace ChatApi

/-- Dropping past an appended string drops from the second part. -/
theorem drop_append_length (a b : String) (n : Nat) :
    (a ++ b).drop (a.length + n) = b.drop n := by
  apply String.ext
  rw [String.data_drop, String.data_drop, String.data_append]
  exact List.drop_append n

/-- C6: `generate_response` produces the same result for any two chat-history
lists, all other arguments and the model behaviour held fixed: the response
does not depend on the `chat_history` argument in any way. -/
theorem generate_response_context_free (m : MessageCreate) (M : GenModel)
    (h1 h2 : List Message) :
    generate_response m h1 M = generate_response m h2 M := rfl

/-- C7: `create_message` performs the content-validity check before any
response generation — when the content is invalid the request fails with the
HTTP 400 bad-request error and the same result is produced whatever the
model `M` would do, with the store untouched and no session operation
issued. -/
theorem create_message_rejects_invalid_content (valid : MessageCreate → Bool)
    (M : GenModel) (db : DB) (m : MessageCreate) (h : valid m = false) :
    create_message valid M db m =
      (.error (.badRequest "Invalid message content"), db, []) := by
  simp [create_message, check_message, h]

/-- Witness for C7 at a concrete invalid request. -/
theorem create_message_rejects_invalid_content_witness :
    validW mcBadW = false ∧
    create_message validW modelW dbW mcBadW =
      (.error (.badRequest "Invalid message content"), dbW, []) :=
  ⟨rfl, create_message_rejects_invalid_content validW modelW dbW mcBadW rfl⟩

/-- C3: `create_user` fails with the duplicate-username HTTP 400 error
exactly when a user with the requested username is already present
(independently of the message table), and otherwise succeeds, returning a
user record carrying the next id, the given username and the generated
token. -/
theorem create_user_duplicate_iff (db : DB) (username freshToken : String) :
    ((∃ u ∈ db.users, u.username = username) →
      create_user db username freshToken =
        (.error (.badRequest "Username already registered"), db, [])) ∧
    ((¬ ∃ u ∈ db.users, u.username = username) →
      create_user db username freshToken =
        (.ok { id := db.nextUserId, username := username, token := freshToken },
         { db with
             users := db.users ++
               [{ id := db.nextUserId, username := username, token := freshToken }],
             nextUserId := db.nextUserId + 1 },
         [.addUser db.nextUserId, .commit])) := by
  constructor
  · rintro ⟨u, hu, hname⟩
    rcases hfind : db.users.find? (fun v => v.username == username) with _ | v
    · rw [List.find?_eq_none] at hfind
      exact absurd (by simp [hname]) (hfind u hu)
    · simp [create_user, hfind]
  · intro hno
    have hfind : db.users.find? (fun v => v.username == username) = none := by
      rw [List.find?_eq_none]
      intro x hx hbe
      exact hno ⟨x, hx, by simpa using hbe⟩
    simp [create_user, hfind]

/-- Witness for C3: both branches at concrete inputs. -/
theorem create_user_duplicate_iff_witness :
    create_user dbW "alice" "tokB" =
      (.error (.badRequest "Username already registered"), dbW, []) ∧
    create_user dbW "bob" "tokB" =
      (.ok { id := dbW.nextUserId, username := "bob", token := "tokB" },
       { dbW with
           users := dbW.users ++
             [{ id := dbW.nextUserId, username := "bob", token := "tokB" }],
           nextUserId := dbW.nextUserId + 1 },
       [.addUser dbW.nextUserId, .commit]) :=
  ⟨(create_user_duplicate_iff dbW "alice" "tokB").1 ⟨aliceW, by decide, rfl⟩,
   (create_user_duplicate_iff dbW "bob" "tokB").2 (by decide)⟩

set_option maxRecDepth 4000 in
/-- C5 counterexample: the returned response is NOT the decoded output with
exactly the prompt prefix removed — with a model that outputs the prompt
followed by "abc", slicing off only the prompt length would give "abc", but
`generate_response` gives "bc": the code drops `len(input_text) + 1`
characters. -/
theorem generate_response_offset_counterexample :
    generate_response mcW [] modelW ≠
      (modelW.run (inputText mcW.content) mcW.response_length mcW.response_top_k
        mcW.response_top_p mcW.response_temperature (6/5 : Rat)).drop
        (inputText mcW.content).length := by
  decide

/-- C5 (amended): `generate_response` builds the fixed-template prompt,
invokes the model once, and removes the prompt prefix PLUS ONE character
from the front of the decoded output: when the output is the prompt followed
by `s`, the result is `s` without its first character. -/
theorem generate_response_offset (m : MessageCreate) (hist : List Message)
    (M : GenModel) (s : String)
    (h : M.run (inputText m.content) m.response_length m.response_top_k
        m.response_top_p m.response_temperature (6/5 : Rat) =
          inputText m.content ++ s) :
    generate_response m hist M = s.drop 1 := by
  show (M.run (inputText m.content) m.response_length m.response_top_k
      m.response_top_p m.response_temperature (6/5 : Rat)).drop
      ((inputText m.content).length + 1) = s.drop 1
  rw [h, drop_append_length]

/-- Witness for the amended C5 at the concrete echo model. -/
theorem generate_response_offset_witness :
    generate_response mcW [] modelW = String.drop "abc" 1 :=
  generate_response_offset mcW [] modelW "abc" rfl

/-- When the token resolves to a user, `get_chat_history` succeeds with that
user's messages in insertion order. -/
theorem get_chat_history_ok {db : DB} {u : User} {t : String}
    (hu : get_user_by_token db t = some u) :
    get_chat_history t db = .ok (db.messages.filter (fun m => m.user_id == u.id)) := by
  simp [get_chat_history, hu]

/-- A failing `delete_messages` leaves the store as it was. -/
theorem delete_messages_error_eq {db : DB} {t : String} {e : ApiError}
    (h : (delete_messages db t).1 = .error e) :
    (delete_messages db t).2.1 = db := by
  rcases hgc : get_chat_history t db with e' | hist
  · simp [delete_messages, hgc]
  · simp [delete_messages, hgc] at h

/-- C9: whenever an endpoint fails with the HTTP 400 error (duplicate
username, unknown token, or invalid content), the database state it returns
is exactly the state it received: every error check happens before any
insert, delete, or commit. -/
theorem http400_leaves_db_unchanged (valid : MessageCreate → Bool) (M : GenModel)
    (db : DB) (username freshToken token : String) (m : MessageCreate) :
    ((∃ e, (create_user db username freshToken).1 = .error e) →
      (create_user db username freshToken).2.1 = db) ∧
    ((∃ e, (delete_user db token).1 = .error e) →
      (delete_user db token).2.1 = db) ∧
    ((∃ e, (create_message valid M db m).1 = .error e) →
      (create_message valid M db m).2.1 = db) ∧
    ((∃ e, (get_messages db token).1 = .error e) →
      (get_messages db token).2.1 = db) ∧
    ((∃ e, (delete_messages db token).1 = .error e) →
      (delete_messages db token).2.1 = db) := by
  refine ⟨?_, ?_, ?_, ?_, ?_⟩
  · rintro ⟨e, he⟩
    rcases hf : db.users.find? (fun v => v.username == username) with _ | v
    · simp [create_user, hf] at he
    · simp [create_user, hf]
  · rintro ⟨e, he⟩
    rcases hu : get_user_by_token db token with _ | u
    · simp [delete_user, hu]
    · rcases hdm : delete_messages db token with ⟨r, db1, ev⟩
      rcases r with e' | s
      · have h1 : (delete_messages db token).2.1 = db :=
          delete_messages_error_eq (e := e') (by rw [hdm])
        rw [hdm] at h1
        simpa [delete_user, hu, hdm] using h1
      · simp [delete_user, hu, hdm] at he
  · rintro ⟨e, he⟩
    rcases hvm : valid m with _ | _
    · simp [create_message, check_message, hvm]
    · rcases hu : get_user_by_token db m.user_token with _ | u
      · simp [create_message, check_message, hvm, hu]
      · simp [create_message, check_message, hvm, hu, get_chat_history_ok hu] at he
  · intro _
    rfl
  · rintro ⟨e, he⟩
    exact delete_messages_error_eq he

/-- Witness for C9: all five endpoints failing at concrete inputs leave the
concrete store untouched. -/
theorem http400_leaves_db_unchanged_witness :
    (create_user dbW "alice" "tokB").2.1 = dbW ∧
    (delete_user dbW "nope").2.1 = dbW ∧
    (create_message validW modelW dbW mcBadW).2.1 = dbW ∧
    (get_messages dbW "nope").2.1 = dbW ∧
    (delete_messages dbW "nope").2.1 = dbW := by
  obtain ⟨h1, h2, h3, h4, h5⟩ :=
    http400_leaves_db_unchanged validW modelW dbW "alice" "tokB" "nope" mcBadW
  exact ⟨h1 ⟨_, rfl⟩, h2 ⟨_, rfl⟩, h3 ⟨_, rfl⟩, h4 ⟨_, rfl⟩, h5 ⟨_, rfl⟩⟩

/-- C8: `delete_messages` issues one individual per-message delete for each
message of the chat history, in order, followed by exactly one commit — no
other session operation (in particular no bulk-delete) appears in the
trace. -/
theorem delete_messages_individual_deletes (db : DB) (t : String) (u : User)
    (hu : get_user_by_token db t = some u) :
    ∃ hist, get_chat_history t db = .ok hist ∧
      (delete_messages db t).2.2 =
        hist.map (fun msg => Event.deleteMessage msg.id) ++ [Event.commit] ∧
      ((delete_messages db t).2.2).count Event.commit = 1 := by
  have hev : (delete_messages db t).2.2 =
      (db.messages.filter (fun m => m.user_id == u.id)).map
        (fun msg => Event.deleteMessage msg.id) ++ [Event.commit] := by
    simp [delete_messages, get_chat_history_ok hu]
  refine ⟨_, get_chat_history_ok hu, hev, ?_⟩
  rw [hev, List.count_append]
  have hz : List.count Event.commit
      ((db.messages.filter (fun m => m.user_id == u.id)).map
        (fun msg => Event.deleteMessage msg.id)) = 0 := by
    rw [List.count_eq_zero]
    simp
  rw [hz]
  simp

/-- Witness for C8 at the concrete store. -/
theorem delete_messages_individual_deletes_witness :
    ∃ hist, get_chat_history "tokA" dbW = .ok hist ∧
      (delete_messages dbW "tokA").2.2 =
        hist.map (fun msg => Event.deleteMessage msg.id) ++ [Event.commit] ∧
      ((delete_messages dbW "tokA").2.2).count Event.commit = 1 :=
  delete_messages_individual_deletes dbW "tokA" aliceW rfl

/-- A survivor of the per-message delete loop was already present and shares
its id with no deleted message. -/
theorem mem_purge {hist msgs : List Message} {m : Message}
    (h : m ∈ purge msgs hist) :
    m ∈ msgs ∧ ∀ msg ∈ hist, m.id ≠ msg.id := by
  induction hist generalizing msgs with
  | nil => exact ⟨h, by simp⟩
  | cons a as ih =>
    rw [purge, List.foldl_cons] at h
    obtain ⟨h1, h2⟩ := ih h
    rw [List.mem_filter] at h1
    refine ⟨h1.1, ?_⟩
    intro msg hm
    rcases List.mem_cons.mp hm with rfl | hm'
    · simpa using h1.2
    · exact h2 msg hm'

/-- What `delete_messages` returns when the token resolves to a user. -/
theorem delete_messages_eq (db : DB) (t : String) (u : User)
    (hu : get_user_by_token db t = some u) :
    delete_messages db t =
      (.ok "Chat history deleted successfully",
       { db with
           messages := purge db.messages (db.messages.filter (fun x => x.user_id == u.id)) },
       (db.messages.filter (fun x => x.user_id == u.id)).map
         (fun msg => Event.deleteMessage msg.id) ++ [Event.commit]) := by
  simp [delete_messages, get_chat_history_ok hu, purge]

/-- C4: clearing the chat history with a user's token removes all of that
user's messages while leaving the user table unchanged, so the same token
still identifies the user and a new message can be posted with it
afterward. -/
theorem delete_messages_preserves_user (valid : MessageCreate → Bool)
    (M : GenModel) (db : DB) (t : String) (u : User)
    (hu : get_user_by_token db t = some u) :
    ∃ db1 ev, delete_messages db t =
        (.ok "Chat history deleted successfully", db1, ev) ∧
      db1.users = db.users ∧
      (∀ m ∈ db1.messages, m.user_id ≠ u.id) ∧
      get_user_by_token db1 t = some u ∧
      (∀ msg : MessageCreate, msg.user_token = t → valid msg = true →
        ∃ rec db2 ev2, create_message valid M db1 msg = (.ok rec, db2, ev2) ∧
          rec.user_id = u.id ∧ rec.content = msg.content) := by
  refine ⟨_, _, delete_messages_eq db t u hu, rfl, ?_, hu, ?_⟩
  · intro m hm
    obtain ⟨h1, h2⟩ := mem_purge hm
    intro heq
    exact h2 m (List.mem_filter.mpr ⟨h1, by simp [heq]⟩) rfl
  · intro msg hmt hvalid
    have hu1 : get_user_by_token
        { db with
            messages := purge db.messages (db.messages.filter (fun x => x.user_id == u.id)) }
        msg.user_token = some u := by
      rw [hmt]; exact hu
    refine ⟨{ id := db.nextMessageId, content := msg.content,
              generated_response := some (generate_response msg [] M),
              user_id := u.id },
            { users := db.users,
              messages :=
                purge db.messages (db.messages.filter (fun x => x.user_id == u.id)) ++
                  [{ id := db.nextMessageId, content := msg.content,
                     generated_response := some (generate_response msg [] M),
                     user_id := u.id }],
              nextUserId := db.nextUserId, nextMessageId := db.nextMessageId + 1 },
            [Event.addMessage db.nextMessageId, Event.commit], ?_, rfl, rfl⟩
    simp [create_message, check_message, hvalid, hu1, get_chat_history_ok hu1,
      generate_response]

/-- Witness for C4 at the concrete store. -/
theorem delete_messages_preserves_user_witness :
    ∃ db1 ev, delete_messages dbW "tokA" =
        (.ok "Chat history deleted successfully", db1, ev) ∧
      db1.users = dbW.users ∧
      (∀ m ∈ db1.messages, m.user_id ≠ aliceW.id) ∧
      get_user_by_token db1 "tokA" = some aliceW ∧
      (∀ msg : MessageCreate, msg.user_token = "tokA" → validW msg = true →
        ∃ rec db2 ev2, create_message validW modelW db1 msg = (.ok rec, db2, ev2) ∧
          rec.user_id = aliceW.id ∧ rec.content = msg.content) :=
  delete_messages_preserves_user validW modelW dbW "tokA" aliceW rfl

/-- C1: deleting a user via a token that resolves to them (and is held by no
other user) removes the user row and every message whose `user_id`
referenced it, and a subsequent history retrieval with that token fails with
the HTTP 400 unknown-token error. -/
theorem delete_user_removes_user_and_messages (db : DB) (t : String) (u : User)
    (hu : get_user_by_token db t = some u)
    (huniq : ∀ v ∈ db.users, v.token = t → v = u) :
    ∃ db2 ev, delete_user db t =
        (.ok ("User " ++ u.username ++ " deleted successfully"), db2, ev) ∧
      u ∉ db2.users ∧
      (∀ v ∈ db2.users, v.id ≠ u.id) ∧
      (∀ m ∈ db2.messages, m.user_id ≠ u.id) ∧
      get_chat_history t db2 = .error (.badRequest "Invalid token") := by
  have hdu : delete_user db t =
      (.ok ("User " ++ u.username ++ " deleted successfully"),
       { db with
           users := db.users.filter (fun v => v.id != u.id),
           messages := purge db.messages (db.messages.filter (fun x => x.user_id == u.id)) },
       ((db.messages.filter (fun x => x.user_id == u.id)).map
          (fun msg => Event.deleteMessage msg.id) ++ [Event.commit]) ++
        [.deleteUser u.id, .commit]) := by
    simp [delete_user, hu, delete_messages_eq db t u hu]
  have hnone : get_user_by_token
      { db with
          users := db.users.filter (fun v => v.id != u.id),
          messages := purge db.messages (db.messages.filter (fun x => x.user_id == u.id)) }
      t = none := by
    rw [get_user_by_token, List.find?_eq_none]
    intro v hv hbeq
    rw [List.mem_filter] at hv
    have hvu : v = u := huniq v hv.1 (by simpa using hbeq)
    subst hvu
    simp at hv
  refine ⟨_, _, hdu, ?_, ?_, ?_, ?_⟩
  · intro hmem
    rw [List.mem_filter] at hmem
    simp at hmem
  · intro v hv
    rw [List.mem_filter] at hv
    simpa using hv.2
  · intro m hm
    obtain ⟨h1, h2⟩ := mem_purge hm
    intro heq
    exact h2 m (List.mem_filter.mpr ⟨h1, by simp [heq]⟩) rfl
  · simp [get_chat_history, hnone]

/-- What `create_message` returns when the content is valid and the token
resolves to a user. -/
theorem create_message_ok_eq (valid : MessageCreate → Bool) (M : GenModel)
    (db : DB) (u : User) (m : MessageCreate)
    (hu : get_user_by_token db m.user_token = some u)
    (hv : valid m = true) :
    create_message valid M db m =
      (.ok (newMessage M db u m),
       { db with messages := db.messages ++ [newMessage M db u m],
                 nextMessageId := db.nextMessageId + 1 },
       [.addMessage db.nextMessageId, .commit]) := by
  simp [create_message, check_message, hv, hu, get_chat_history_ok hu, newMessage]

/-- Posting a sequence of valid messages under one token succeeds and appends
exactly those contents, in order, to the user's history; the user table is
untouched. -/
theorem run_creates_spec (valid : MessageCreate → Bool) (M : GenModel)
    (t : String) (u : User) :
    ∀ (msgs : List MessageCreate) (db : DB),
      get_user_by_token db t = some u →
      (∀ m ∈ msgs, m.user_token = t ∧ valid m = true) →
      ∃ db2, run_creates valid M db msgs = .ok db2 ∧
        get_user_by_token db2 t = some u ∧
        db2.users = db.users ∧
        (db2.messages.filter (fun x => x.user_id == u.id)).map (fun x => x.content) =
          (db.messages.filter (fun x => x.user_id == u.id)).map (fun x => x.content)
            ++ msgs.map (fun m => m.content) := by
  intro msgs
  induction msgs with
  | nil =>
    intro db hu _
    exact ⟨db, rfl, hu, rfl, by simp⟩
  | cons m ms ih =>
    intro db hu hall
    obtain ⟨hmt, hmv⟩ := hall m (List.mem_cons_self m ms)
    have hu' : get_user_by_token db m.user_token = some u := by rw [hmt]; exact hu
    have hcm := create_message_ok_eq valid M db u m hu' hmv
    have hu1 : get_user_by_token
        { db with messages := db.messages ++ [newMessage M db u m],
                  nextMessageId := db.nextMessageId + 1 } t = some u := hu
    obtain ⟨db2, hrun, hu2, husers, hmap⟩ :=
      ih _ hu1 (fun x hx => hall x (List.mem_cons_of_mem m hx))
    refine ⟨db2, ?_, hu2, husers, ?_⟩
    · show run_creates valid M db (m :: ms) = .ok db2
      rw [run_creates, hcm]
      exact hrun
    · rw [hmap, List.filter_append]
      have hnew : List.filter (fun x => x.user_id == u.id) [newMessage M db u m] =
          [newMessage M db u m] := by
        simp [newMessage]
      rw [hnew]
      simp [newMessage, List.append_assoc]

/-- C2: for any sequence of N valid messages posted under one token into a
store where that user has no prior messages (and no deletion intervening),
the list-messages endpoint returns exactly N records whose contents are the
posted contents in creation order. -/
theorem create_messages_history_order (valid : MessageCreate → Bool)
    (M : GenModel) (db : DB) (t : String) (u : User) (msgs : List MessageCreate)
    (hu : get_user_by_token db t = some u)
    (hempty : db.messages.filter (fun x => x.user_id == u.id) = [])
    (hall : ∀ m ∈ msgs, m.user_token = t ∧ valid m = true) :
    ∃ db2 l, run_creates valid M db msgs = .ok db2 ∧
      (get_messages db2 t).1 = .ok l ∧
      l.length = msgs.length ∧
      l.map (fun x => x.content) = msgs.map (fun m => m.content) := by
  obtain ⟨db2, hrun, hu2, husers, hmap⟩ := run_creates_spec valid M t u msgs db hu hall
  rw [hempty] at hmap
  simp only [List.map_nil, List.nil_append] at hmap
  refine ⟨db2, db2.messages.filter (fun x => x.user_id == u.id), hrun, ?_, ?_, hmap⟩
  · simp [get_messages, get_chat_history, hu2]
  · have h1 := congrArg List.length hmap
    simpa using h1

/-- Witness for C2: two concrete messages posted into the concrete empty
store. -/
theorem create_messages_history_order_witness :
    ∃ db2 l, run_creates validW modelW dbW2 [mcW, mcW2] = .ok db2 ∧
      (get_messages db2 "tokA").1 = .ok l ∧
      l.length = [mcW, mcW2].length ∧
      l.map (fun x => x.content) = [mcW, mcW2].map (fun m => m.content) :=
  create_messages_history_order validW modelW dbW2 "tokA" aliceW [mcW, mcW2]
    rfl rfl (by decide)

/-- Witness for C1 at the concrete store. -/
theorem delete_user_removes_user_and_messages_witness :
    ∃ db2 ev, delete_user dbW "tokA" =
        (.ok ("User " ++ aliceW.username ++ " deleted successfully"), db2, ev) ∧
      aliceW ∉ db2.users ∧
      (∀ v ∈ db2.users, v.id ≠ aliceW.id) ∧
      (∀ m ∈ db2.messages, m.user_id ≠ aliceW.id) ∧
      get_chat_history "tokA" db2 = .error (.badRequest "Invalid token") :=
  delete_user_removes_user_and_messages dbW "tokA" aliceW rfl (by decide)

/-- Each of the five endpoints preserves referential integrity. -/
theorem step_preserves_RI (valid : MessageCreate → Bool) (M : GenModel)
    (db : DB) (c : Cmd) (h : RefIntegrity db) :
    RefIntegrity (step valid M db c) := by
  cases c with
  | createUser n tk =>
    rcases hf : db.users.find? (fun v => v.username == n) with _ | v
    · intro m hm
      simp only [step, create_user, hf] at hm
      obtain ⟨w, hw1, hw2⟩ := h m hm
      exact ⟨w, by simp [step, create_user, hf, List.mem_append, hw1], hw2⟩
    · simpa [step, create_user, hf] using h
  | deleteUser tk =>
    rcases hu : get_user_by_token db tk with _ | u
    · simpa [step, delete_user, hu] using h
    · have hdu : (delete_user db tk).2.1 =
          { db with
              users := db.users.filter (fun v => v.id != u.id),
              messages := purge db.messages
                (db.messages.filter (fun x => x.user_id == u.id)) } := by
        simp [delete_user, hu, delete_messages_eq db tk u hu]
      intro m hm
      simp only [step] at hm ⊢
      rw [hdu] at hm ⊢
      obtain ⟨hmem, hids⟩ := mem_purge hm
      have hneq : m.user_id ≠ u.id := by
        intro he
        exact hids m (List.mem_filter.mpr ⟨hmem, by simp [he]⟩) rfl
      obtain ⟨v, hv1, hv2⟩ := h m hmem
      refine ⟨v, List.mem_filter.mpr ⟨hv1, ?_⟩, hv2⟩
      simp only [bne_iff_ne, ne_eq, decide_eq_true_eq]
      rw [hv2]
      exact hneq
  | createMessage mc =>
    rcases hvm : valid mc with _ | _
    · simpa [step, create_message, check_message, hvm] using h
    · rcases hu : get_user_by_token db mc.user_token with _ | u
      · simpa [step, create_message, check_message, hvm, hu] using h
      · have hcm : (create_message valid M db mc).2.1 =
            { db with messages := db.messages ++ [newMessage M db u mc],
                      nextMessageId := db.nextMessageId + 1 } := by
          rw [create_message_ok_eq valid M db u mc hu hvm]
        intro m hm
        simp only [step] at hm ⊢
        rw [hcm] at hm ⊢
        rcases List.mem_append.mp hm with hm' | hm'
        · obtain ⟨v, hv1, hv2⟩ := h m hm'
          exact ⟨v, hv1, hv2⟩
        · have hmn : m = newMessage M db u mc := by simpa using hm'
          refine ⟨u, List.mem_of_find?_eq_some hu, ?_⟩
          rw [hmn]
          rfl
  | listMessages tk =>
    simpa [step, get_messages] using h
  | clearMessages tk =>
    rcases hu : get_user_by_token db tk with _ | u
    · simpa [step, delete_messages, get_chat_history, hu] using h
    · intro m hm
      simp only [step] at hm ⊢
      rw [delete_messages_eq db tk u hu] at hm ⊢
      obtain ⟨hmem, _⟩ := mem_purge hm
      exact h m hmem

/-- C10: referential integrity holds after any sequence of the five
operations starting from the empty store — every message row's `user_id` is
the id of a user row present in the store. -/
theorem refIntegrity_after_any_sequence (valid : MessageCreate → Bool)
    (M : GenModel) (cs : List Cmd) :
    RefIntegrity (runCmds valid M initDB cs) := by
  have hinit : RefIntegrity initDB := by
    intro m hm
    simp [initDB] at hm
  suffices hgen : ∀ (cs : List Cmd) (db : DB),
      RefIntegrity db → RefIntegrity (runCmds valid M db cs) from
    hgen cs initDB hinit
  intro cs
  induction cs with
  | nil => intro db h; exact h
  | cons c cs ih =>
    intro db h
    exact ih _ (step_preserves_RI valid M db c h)

end ChatApi
